import Mathlib

/-!
Verification development for the ratmole multi-crate item indexer and
use-path resolver.  The definitions below are a shallow embedding of the
Rust sources (`src/use_path.rs`, `src/tree.rs`, `src/item/structs.rs`,
`src/item/extern_crate.rs`, `src/explore.rs`).  Rust `HashMap`s are
modelled as association lists with unique keys, filesystem paths as lists
of components, and panics (`unwrap`, `panic!`, `todo!`, out-of-bounds
indexing, non-exhaustive matches) as `Option.none` at the outermost layer.
-/

set_option maxHeartbeats 1000000

namespace Ratmole

/-- Association-list lookup, the model of `HashMap::get`: the first pair
whose key equals `k` wins (keys are unique in the maps the code builds). -/
def assocFind {κ β : Type} [DecidableEq κ] (k : κ) : List (κ × β) → Option β
  | [] => none
  | (k', v) :: rest => if k' = k then some v else assocFind k rest

/-! ## Path model (`src/item/structs.rs`) -/

/-- `PathComponent` from `src/item/structs.rs`. -/
inductive PathComponent : Type
  | Global
  | SmallSelf
  | BigSelf
  | Super
  | Crate
  | Name (s : String)
deriving DecidableEq

/-- A `Path` is a vector of components (`struct Path(Vec<PathComponent>)`). -/
abbrev Path : Type := List PathComponent

/-- The `Display` impl of `PathComponent`. -/
def PathComponent.toStr : PathComponent → String
  | .Global => ""
  | .SmallSelf => "self"
  | .BigSelf => "Self"
  | .Super => "super"
  | .Crate => "crate"
  | .Name s => s

/-- The `Display` impl of `Path`: components joined by `::`. -/
def pathToString (p : Path) : String :=
  String.intercalate "::" (p.map PathComponent.toStr)

/-- `Path::first_as_path`: a one-component path holding the first component.
`self.components().first().unwrap()` panics on an empty path, modelled as
`none`. -/
def Path.first_as_path (p : Path) : Option Path :=
  match p.head? with
  | none => none
  | some c => some [c]

/-- `Visibility` from `src/item/structs.rs`. -/
inductive Visibility : Type
  | Public
  | Crate
  | Restricted (p : Path)
  | Private
deriving DecidableEq

/-! ## Use paths (`src/use_path.rs`) -/

/-- `UsePathComponent` from `src/use_path.rs`. -/
inductive UsePathComponent : Type
  | Name (s : String)
  | Rename (s t : String)
  | Glob
  | Empty
deriving DecidableEq

/-- `UsePathComponent::as_name`. -/
def UsePathComponent.as_name : UsePathComponent → Option String
  | .Name s => some s
  | _ => none

/-- `UsePath` from `src/use_path.rs`: the component vector plus the
visibility tag. -/
structure UsePath : Type where
  path : List UsePathComponent
  vis : Visibility
deriving DecidableEq

/-- `UsePath::begins_with`. -/
def UsePath.begins_with (up : UsePath) (s : String) : Bool :=
  match up.path.head? with
  | some (.Name name) => s = name
  | some _ => false
  | none => false

/-- `UsePath::begins_with_empty`. -/
def UsePath.begins_with_empty (up : UsePath) : Bool :=
  match up.path.head? with
  | some first => first = .Empty
  | none => false

/-- `UsePath::replace_first`: when the first component is a plain `Name`,
overwrite its string with `new_first` (`first.clear(); first.push_str(..)`);
on an empty path or any other first component the `if let` does not match
and the path is left unchanged.  No error is signalled in either case. -/
def UsePath.replace_first (up : UsePath) (new_first : String) : UsePath :=
  match up.path with
  | .Name _ :: rest => ⟨.Name new_first :: rest, up.vis⟩
  | _ => up

/-- `UsePath::remove_first` (`Vec::remove(0)`): panics (modelled `none`) on
an empty vector. -/
def UsePath.remove_first (up : UsePath) : Option UsePath :=
  match up.path with
  | [] => none
  | _ :: rest => some ⟨rest, up.vis⟩

/-- Loop body of `UsePath::delocalize` over the prefix components
(`self.path[0..len-1]`): `super` pops the base, `crate` resets the base to
the first component of the *containing module* (panicking — `none` — when
that module is empty), `self` is skipped, any other name is kept, and any
non-`Name` component hits the `panic!` arm. -/
def delocalizeAux (module : Path) :
    List UsePathComponent → Path → List UsePathComponent →
    Option (Path × List UsePathComponent)
  | [], base, acc => some (base, acc)
  | .Name n :: rest, base, acc =>
    if n = "super" then delocalizeAux module rest base.dropLast acc
    else if n = "crate" then
      match module.head? with
      | none => none
      | some m0 => delocalizeAux module rest [m0] acc
    else if n = "self" then delocalizeAux module rest base acc
    else delocalizeAux module rest base (acc ++ [.Name n])
  | _ :: _, _, _ => none

/-- `UsePath::delocalize`: returns the base module resolution starts from
and the rewritten use-path (the source mutates `self` in place and returns
the base).  An empty use-path panics in the source (`self.path.len() - 1`
underflows), modelled as `none`. -/
def UsePath.delocalize (up : UsePath) (module : Path) :
    Option (Path × UsePath) :=
  match up.path.getLast? with
  | none => none
  | some last =>
    match delocalizeAux module up.path.dropLast module [] with
    | none => none
    | some (base, acc) => some (base, ⟨acc ++ [last], up.vis⟩)

/-! ## Item trees (`src/tree.rs`)

`PathNode` in `src/tree.rs` stores `child_mods: HashMap<String, PathNode>`
and `child_structs: HashMap<String, &Struct>`.  The generic `ItemTree` used
by `src/explore.rs` is not present under `src/`; per the spec (§4.E) it is
the same trie generalised over the item kind, so the node is embedded with
a type parameter `α` (the in-src `StructTree` is the instance `α = Struct`).
-/

/-- A trie node: local name, child modules, child items (`PathNode`). -/
inductive PathNode (α : Type) : Type
  | mk (name : String) (child_mods : List (String × PathNode α))
      (child_items : List (String × α))

/-- The node's name. -/
def PathNode.name {α : Type} : PathNode α → String
  | .mk n _ _ => n

/-- The node's child-module map (`child_mods`). -/
def PathNode.child_mods {α : Type} : PathNode α → List (String × PathNode α)
  | .mk _ m _ => m

/-- The node's item map (`child_structs` in the in-src `StructTree`). -/
def PathNode.child_items {α : Type} : PathNode α → List (String × α)
  | .mk _ _ i => i

/-- `ResolvedUsePath` from `src/tree.rs`: either an item reference or a
fully-qualified module path. -/
inductive ResolvedUsePath (α : Type) : Type
  | Struct (a : α)
  | Module (p : Path)
deriving DecidableEq

/-- The inner `resolve_name` of `PathNode::resolve_use_path`: an item of
the given name wins; otherwise a child module of that name is returned as
a module path; otherwise nothing. -/
def resolve_name {α : Type} (node : PathNode α) (name : String)
    (mod_path : Path) : List (ResolvedUsePath α) :=
  match assocFind name node.child_items with
  | some a => [.Struct a]
  | none =>
    match assocFind name node.child_mods with
    | some _ => [.Module (mod_path ++ [.Name name])]
    | none => []

/-- `PathNode::resolve_use_path`.  With more than one segment left, the
first segment goes through `as_name().unwrap()` — a non-`Name` segment
panics (`none`); a missing child module returns the empty vector.  With
exactly one segment, `Name`/`Rename` resolve by name and `Glob` returns
every direct item plus one module result per direct child; the source
`match` has no arm for `Empty` (and indexing an empty use-path panics),
both modelled as `none`. -/
def PathNode.resolve_use_path {α : Type} :
    PathNode α → List UsePathComponent → Path →
    Option (List (ResolvedUsePath α))
  | node, c1 :: c2 :: rest, mod_path =>
    (match c1.as_name with
     | none => none
     | some first =>
       match assocFind first node.child_mods with
       | none => some []
       | some child =>
         child.resolve_use_path (c2 :: rest) (mod_path ++ [.Name first]))
  | node, [c], mod_path =>
    (match c with
     | .Name name => some (resolve_name node name mod_path)
     | .Rename name _ => some (resolve_name node name mod_path)
     | .Glob =>
       some ((node.child_items.map (fun kv => .Struct kv.2)) ++
         (node.child_mods.map
           (fun kv => .Module (mod_path ++ [.Name kv.1]))))
     | .Empty => none)
  | _, [], _ => none

/-- The walk of `StructTree::resolve_use_path` (and, per the spec, of the
generic `ItemTree`): descend from the root along `start_mod`'s components,
keyed by their display strings; a missing node yields `none` (the source
returns the empty vector there). -/
def treeWalk {α : Type} : PathNode α → Path → Option (PathNode α)
  | node, [] => some node
  | node, c :: rest =>
    match assocFind c.toStr node.child_mods with
    | none => none
    | some child => treeWalk child rest

/-- `StructTree::resolve_use_path` from `src/tree.rs`: walk `start_mod`
from the root — a missing node returns the empty vector — then resolve the
use-path at the reached node with `mod_path` seeded to `start_mod`'s
components. -/
def StructTree.resolve_use_path {α : Type} (root : PathNode α) (up : UsePath)
    (start_mod : Path) : Option (List (ResolvedUsePath α)) :=
  match treeWalk root start_mod with
  | none => some []
  | some node => node.resolve_use_path up.path start_mod

/-- Modelled from the spec: the node-level resolution of the generic
per-item-kind `ItemTree` (§4.E), which `src/explore.rs` uses but which is
absent from `src/` (only the older `StructTree` instance is present).  Its
`resolve` returns plain item references — `explore.rs` maps them directly
into kind-tagged results — so, per §4.E: non-final segments must be plain
identifiers naming child modules, any other form yielding empty; a final
plain identifier returns the single item of that name at the node, else
empty; a final rename resolves by its source name; a final glob returns all
items at the node. -/
def itemNodeResolve {α : Type} : PathNode α → List UsePathComponent → List α
  | node, c1 :: c2 :: rest =>
    (match c1.as_name with
     | none => []
     | some first =>
       match assocFind first node.child_mods with
       | none => []
       | some child => itemNodeResolve child (c2 :: rest))
  | node, [c] =>
    (match c with
     | .Name name => (assocFind name node.child_items).toList
     | .Rename name _ => (assocFind name node.child_items).toList
     | .Glob => node.child_items.map (fun kv => kv.2)
     | .Empty => [])
  | _, [] => []

/-- Modelled from the spec: `ItemTree::resolve_use_path` of §4.E (absent
from `src/`): walk `start_mod` from the root — a missing node returns
empty — then resolve the use-path at the reached node. -/
def ItemTree.resolve_use_path {α : Type} (root : PathNode α) (up : UsePath)
    (start_mod : Path) : List α :=
  match treeWalk root start_mod with
  | none => []
  | some node => itemNodeResolve node up.path

/-! ## Use-path resolver (`src/explore.rs`) -/

/-- Cargo's `Edition` as consumed by the resolver; ordered by year. -/
inductive Edition : Type
  | Edition2015
  | Edition2018
  | Edition2021
  | Edition2024
deriving DecidableEq

/-- The year rank backing `Edition`'s derived ordering. -/
def Edition.rank : Edition → Nat
  | .Edition2015 => 2015
  | .Edition2018 => 2018
  | .Edition2021 => 2021
  | .Edition2024 => 2024

/-- `ExternCrate` from `src/item/extern_crate.rs`. -/
structure ExternCrate : Type where
  name : String
  rename : Option String
  module : Path
  vis : Visibility

/-- `extern_crate_rename` from `src/explore.rs`: look the scope's module up
in the extern-crates table and fold over its records; every record with a
rename matching the use-path's first segment rewrites that segment to the
record's real name and sets the changed flag. -/
def extern_crate_rename (up : UsePath) (module : Path)
    (extern_crates : List (Path × List ExternCrate)) : UsePath × Bool :=
  match assocFind module extern_crates with
  | none => (up, false)
  | some crates =>
    crates.foldl
      (fun (st : UsePath × Bool) ec =>
        match ec.rename with
        | some rn =>
          if st.1.begins_with rn then (st.1.replace_first ec.name, true)
          else st
        | none => st)
      (up, false)

/-- `UsePathResolver` from `src/explore.rs`: one `ItemTree` per item kind,
the extern-crates table, and the crate's edition. -/
structure UsePathResolver (S E C T M : Type) : Type where
  structs_tree : PathNode S
  enums_tree : PathNode E
  consts_tree : PathNode C
  type_aliases_tree : PathNode T
  mod_tree : PathNode M
  extern_crates : List (Path × List ExternCrate)
  edition : Edition

/-- `ResolvedUsePath` from `src/explore.rs` (distinct from the one in
`src/tree.rs`): the kind-tagged result union. -/
inductive ResolvedItem (S E C T M : Type) : Type
  | Struct (s : S)
  | Module (m : M)
  | Enum (e : E)
  | Const (c : C)
  | TypeAlias (t : T)
deriving DecidableEq

/-- `UsePathResolver::resolve_internal`: resolve against every item-kind
tree from the same base and concatenate, tagging each result with its
kind, in source order (structs, enums, consts, type aliases, modules). -/
def UsePathResolver.resolve_internal {S E C T M : Type}
    (r : UsePathResolver S E C T M) (up : UsePath) (start_mod : Path) :
    List (ResolvedItem S E C T M) :=
  ((ItemTree.resolve_use_path r.structs_tree up start_mod).map
      (fun x => ResolvedItem.Struct x)) ++
    ((ItemTree.resolve_use_path r.enums_tree up start_mod).map
      (fun x => ResolvedItem.Enum x)) ++
    ((ItemTree.resolve_use_path r.consts_tree up start_mod).map
      (fun x => ResolvedItem.Const x)) ++
    ((ItemTree.resolve_use_path r.type_aliases_tree up start_mod).map
      (fun x => ResolvedItem.TypeAlias x)) ++
    ((ItemTree.resolve_use_path r.mod_tree up start_mod).map
      (fun x => ResolvedItem.Module x))

/-- `UsePathResolver::resolve`.  Editions before 2018 hit `todo!` (`none`).
Otherwise: an absolute path (leading `Empty`) drops its first segment and
resolves from the empty root base; any other path is first delocalized
against the containing module and resolved from the resulting base, and
only when that local lookup comes back empty are extern-crate renames
applied — first under the containing module's single-component prefix
(`first_as_path`, panicking on an empty module), then, only if nothing was
rewritten, under the full containing module — before resolving the
rewritten path from the empty root base. -/
def UsePathResolver.resolve {S E C T M : Type}
    (r : UsePathResolver S E C T M) (up : UsePath) (containing_mod : Path) :
    Option (List (ResolvedItem S E C T M)) :=
  if Edition.rank .Edition2018 ≤ Edition.rank r.edition then
    if up.begins_with_empty then
      match up.remove_first with
      | none => none
      | some up1 => some (r.resolve_internal up1 [])
    else
      match up.delocalize containing_mod with
      | none => none
      | some (start_mod, up1) =>
        let items := r.resolve_internal up1 start_mod
        if items.isEmpty then
          match containing_mod.first_as_path with
          | none => none
          | some crate_scope =>
            let st1 := extern_crate_rename up1 crate_scope r.extern_crates
            let up2 :=
              if st1.2 then st1.1
              else (extern_crate_rename st1.1 containing_mod
                r.extern_crates).1
            some (r.resolve_internal up2 [])
        else some items
  else none

/-! ## Module discovery (`src/explore.rs`), errors (`src/error.rs`)

Filesystem paths are modelled as lists of components; `PathBuf::pop`
drops the last component, `PathBuf::push` of a relative path appends its
components, `file_name` is the last component.  The filesystem itself is
the list of existing regular files (`exists() && is_file()`).
-/

/-- The subset of `Error` from `src/error.rs` reachable in the embedded
code paths.  `error.rs` has no `InvalidUsePath` variant. -/
inductive Error : Type
  | IoError
  | ParseError
  | InvalidCrate (msg : String)
deriving DecidableEq

/-- `ModuleCategory` from `src/explore.rs`. -/
inductive ModuleCategory : Type
  | Root
  | Direct
  | Mod
deriving DecidableEq

/-- The `Display` impl of `ModuleCategory`. -/
def ModuleCategory.toStr : ModuleCategory → String
  | .Root => "Root"
  | .Direct => "Direct"
  | .Mod => "Mod"

/-- `Module` from `src/explore.rs`: filesystem path, fully-qualified rust
path, local name, category, visibility. -/
structure Module : Type where
  path : List String
  rust_path : Path
  name : String
  cat : ModuleCategory
  vis : Visibility
deriving DecidableEq

/-- A filesystem path joined for display. -/
def filePathToString (p : List String) : String :=
  String.intercalate "/" p

/-- The `Display` impl of `Module`: `"{} at {} of type {}"`. -/
def Module.toStr (m : Module) : String :=
  pathToString m.rust_path ++ " at " ++ filePathToString m.path ++
    " of type " ++ m.cat.toStr

/-- `Module::submodule`: the candidate directory is the current file's
directory (`path.pop()`), with the current module's local name appended
when the current category is `Direct`; try `<dir>/<name>.rs` (category
`Direct`) first, then `<dir>/<name>/mod.rs` (category `Mod`); the
submodule's rust path is the current one with `name` appended.  `fs` is
the set of existing files. -/
def Module.submodule (fs : List (List String)) (m : Module) (name : String)
    (vis : Visibility) : Option Module :=
  let rust_path := m.rust_path ++ [PathComponent.Name name]
  let dir1 :=
    if m.cat = ModuleCategory.Direct then m.path.dropLast ++ [m.name]
    else m.path.dropLast
  let mod_path1 := dir1 ++ [name ++ ".rs"]
  if mod_path1 ∈ fs then
    some ⟨mod_path1, rust_path, name, ModuleCategory.Direct, vis⟩
  else
    let dir2 :=
      if m.cat = ModuleCategory.Direct then m.path.dropLast ++ [m.name]
      else m.path.dropLast
    let mod_path2 := dir2 ++ [name, "mod.rs"]
    if mod_path2 ∈ fs then
      some ⟨mod_path2, rust_path, name, ModuleCategory.Mod, vis⟩
    else none

/-- A `syn` attribute on a module declaration, as far as
`empty_modules_from_file` inspects it: a well-formed `#[path = "…"]`, a
malformed `#[path …]` (whose parse error the source propagates with `?`),
a `#[cfg_attr(cond, path = "…")]`, a `cfg_attr` whose tokens do not parse
to that shape (silently skipped), or any other attribute. -/
inductive SynAttr : Type
  | pathAttr (lit : String)
  | pathAttrMalformed
  | cfgAttrPath (cond : String) (lit : String)
  | cfgAttrOther (cond : String)
  | otherAttr (name : String)
deriving DecidableEq

/-- The attribute loop of `empty_modules_from_file`: the first `path`
attribute (parse failure propagating) or the first `cfg_attr` whose tokens
parse as `(cond, path = "…")` wins — the conditional is never inspected;
everything else is skipped. -/
def findPathAttr : List SynAttr → Except Error (Option String)
  | [] => .ok none
  | .pathAttr lit :: _ => .ok (some lit)
  | .pathAttrMalformed :: _ => .error .ParseError
  | .cfgAttrPath _ lit :: _ => .ok (some lit)
  | .cfgAttrOther _ :: rest => findPathAttr rest
  | .otherAttr _ :: rest => findPathAttr rest

/-- Split a character list at `/` separators, accumulating the current
component in reverse. -/
def splitSlash : List Char → List Char → List String
  | [], cur => [String.mk cur.reverse]
  | c :: rest, cur =>
    if c = '/' then String.mk cur.reverse :: splitSlash rest []
    else splitSlash rest (c :: cur)

/-- `PathBuf::from` on an attribute literal: split into components. -/
def pathBufFromString (s : String) : List String :=
  splitSlash s.data []

/-- `ASTModule` from `src/explore.rs`: an empty (body-less) `mod X;`
declaration with its optional `path`-attribute file path. -/
structure ASTModule : Type where
  name : String
  path : Option (List String)
  vis : Visibility
deriving DecidableEq

/-- `Module::direct_submodules`.  A declaration with a `path` attribute is
bound at the current file's directory joined with the attribute path, its
category read off the resulting file name (`mod.rs` → Mod, `lib.rs` →
Root, else Direct; `file_name().unwrap()` panics — `none` — when there is
no final component); a declaration without one goes through `submodule`,
a miss producing `Error::InvalidCrate` with a message naming the submodule
and the containing module. -/
def Module.direct_submodules (fs : List (List String)) (m : Module) :
    List ASTModule → Option (Except Error (List Module))
  | [] => some (.ok [])
  | ast :: rest =>
    match ast.path with
    | some p =>
      let new_path := m.path.dropLast ++ p
      (match new_path.getLast? with
       | none => none
       | some file_name =>
         let cat :=
           if file_name = "mod.rs" then ModuleCategory.Mod
           else if file_name = "lib.rs" then ModuleCategory.Root
           else ModuleCategory.Direct
         match m.direct_submodules fs rest with
         | none => none
         | some (.error e) => some (.error e)
         | some (.ok subs) =>
           some (.ok (⟨new_path, m.rust_path ++ [PathComponent.Name ast.name],
             ast.name, cat, ast.vis⟩ :: subs)))
    | none =>
      match m.submodule fs ast.name ast.vis with
      | none =>
        some (.error (Error.InvalidCrate
          ("Failed to find sub-self " ++ ast.name ++ " for module " ++
            m.toStr)))
      | some sub =>
        match m.direct_submodules fs rest with
        | none => none
        | some (.error e) => some (.error e)
        | some (.ok subs) => some (.ok (sub :: subs))

/-! ## Extraction pipeline (`src/explore.rs`)

`syn` and file I/O are external collaborators: an `Env` records, for each
existing file, the outcome of `syn::parse_file` on its contents (`none`
standing for a parse failure).  Logging is modelled by counting the
`warn!` calls each function performs.
-/

/-- A top-level `syn::Item`, to the extent the embedded functions inspect
it: a module declaration (with attributes, optional inline content and
visibility) or anything else. -/
inductive SynItem : Type
  | Mod (name : String) (attrs : List SynAttr)
      (content : Option (List SynItem)) (vis : Visibility)
  | Other

/-- The environment: each existing file with its parse outcome (`none` =
`syn::parse_file` failed). -/
structure Env : Type where
  files : List (List String × Option (List SynItem))

/-- The set of existing files of an environment. -/
def Env.fs (env : Env) : List (List String) :=
  env.files.map (fun kv => kv.1)

/-- A per-kind extraction result: module path → items, the model of
`HashMap<Path, Vec<R>>`. -/
abbrev ThingMap (α : Type) : Type := List (Path × List α)

/-- The merge step used throughout `explore.rs`: append to the entry of an
existing key, else insert the key. -/
def insertAppend {α : Type} : ThingMap α → Path → List α → ThingMap α
  | [], k, v => [(k, v)]
  | (k', v') :: rest, k, v =>
    if k' = k then (k', v' ++ v) :: rest
    else (k', v') :: insertAppend rest k v

/-- Merge every entry of the second map into the first. -/
def mergeMaps {α : Type} (m : ThingMap α) (m' : ThingMap α) : ThingMap α :=
  m'.foldl (fun acc kv => insertAppend acc kv.1 kv.2) m

/-- Merge a list of maps left to right into the empty map. -/
def mergeAll {α : Type} (ms : List (ThingMap α)) : ThingMap α :=
  ms.foldl mergeMaps []

/-- `things_from_file`: open and read the file (I/O failure propagating as
an error), then parse it; a parse failure warns once and yields `Ok(None)`
— never an error — while a successful parse runs the extractor. -/
def things_from_file {R : Type} (env : Env)
    (gen : List SynItem → Path → R) (file_path : List String)
    (module : Path) : Except Error (Nat × Option R) :=
  match assocFind file_path env.files with
  | none => .error .IoError
  | some none => .ok (1, none)
  | some (some items) => .ok (0, some (gen items module))

/-- The item loop of `empty_modules_from_file`: collect every body-less
module declaration (skipping the raw-identifier workaround `r#try`),
extracting its optional path attribute. -/
def emptyModsFromItems : List SynItem → Except Error (List ASTModule)
  | [] => .ok []
  | SynItem.Mod name attrs none vis :: rest =>
    if name = "r#try" then emptyModsFromItems rest
    else
      (match findPathAttr attrs with
       | .error e => .error e
       | .ok lit =>
         match emptyModsFromItems rest with
         | .error e => .error e
         | .ok ms => .ok (⟨name, lit.map pathBufFromString, vis⟩ :: ms))
  | _ :: rest => emptyModsFromItems rest

/-- `empty_modules_from_file`: open, read and parse the file; a parse
failure warns once and yields `Ok(None)`. -/
def empty_modules_from_file (env : Env) (file_path : List String) :
    Except Error (Nat × Option (List ASTModule)) :=
  match assocFind file_path env.files with
  | none => .error .IoError
  | some none => .ok (1, none)
  | some (some items) =>
    match emptyModsFromItems items with
    | .error e => .error e
    | .ok ms => .ok (0, some ms)

/-- The per-submodule closure of `things_from_submodules`
(`things_from_file(..).unwrap().unwrap_or_else(warn; empty)`): an I/O
error panics (`none`), a parse failure warns and contributes the empty
map. -/
def file_things {α : Type} (env : Env)
    (gen : List SynItem → Path → ThingMap α) (sub : Module) :
    Option (Nat × ThingMap α) :=
  match things_from_file env gen sub.path sub.rust_path with
  | .error _ => none
  | .ok (w, some r) => some (w, r)
  | .ok (w, none) => some (w + 1, [])

/-- `things_from_submodules`, with explicit recursion fuel (`none` also
standing for fuel exhaustion): read the module's own file — a parse
failure contributes zero submodule discoveries (`Ok` of the empty map) —
then bind its empty module declarations via `direct_submodules`, collect
each submodule file's items (I/O errors panicking), recurse into each
submodule (a recursion error being swallowed with a warning and the empty
map), and merge everything. -/
def things_from_submodules {α : Type} (env : Env)
    (gen : List SynItem → Path → ThingMap α) :
    Nat → Module → Option (Except Error (Nat × ThingMap α))
  | 0, _ => none
  | fuel + 1, m =>
    match empty_modules_from_file env m.path with
    | .error e => some (.error e)
    | .ok (w, none) => some (.ok (w, []))
    | .ok (w, some empty_mods) =>
      match m.direct_submodules env.fs empty_mods with
      | none => none
      | some (.error e) => some (.error e)
      | some (.ok sub_mods) =>
        match sub_mods.mapM (file_things env gen) with
        | none => none
        | some per_file =>
          match sub_mods.mapM (fun s =>
              (things_from_submodules env gen fuel s).map (fun r =>
                match r with
                | .error _ => ((1 : Nat), ([] : ThingMap α))
                | .ok x => x)) with
          | none => none
          | some per_rec =>
            let all := per_file ++ per_rec
            some (.ok (w + (all.map (fun x => x.1)).sum,
              mergeAll (all.map (fun x => x.2))))

/-! ## Spec-side definitions for refinement claims -/

/-- The spec's error kind for malformed use paths (§7); `src/error.rs`
has no corresponding variant. -/
inductive SpecError : Type
  | InvalidUsePath
deriving DecidableEq

/-- Modelled from the spec: `replace_first` as §4.A describes it — "Fails
with InvalidUsePath if `replace_first` is called on an empty path or one
whose first segment is not a plain identifier". -/
def replace_first_spec (up : UsePath) (new_first : String) :
    Except SpecError UsePath :=
  match up.path with
  | UsePathComponent.Name _ :: rest => .ok ⟨.Name new_first :: rest, up.vis⟩
  | _ => .error .InvalidUsePath

/-- Whether a prefix component is a plain identifier kept by
normalization (not one of the relative markers `self`/`super`/`crate`). -/
def isKeptName : UsePathComponent → Bool
  | .Name n => if n = "self" ∨ n = "super" ∨ n = "crate" then false else true
  | _ => false

/-- Modelled from the spec: the base-module transformation of §4.F /
claim C2 — process the prefix segments in order: `self` leaves the base
unchanged, `super` removes one trailing segment, `crate` resets the base
to the single first segment of the containing module, and a plain
identifier leaves the base unchanged (it is kept in the use-path). -/
def delocalizeSpecBase (module : Path) :
    List UsePathComponent → Path → Path
  | [], base => base
  | .Name n :: rest, base =>
    if n = "self" then delocalizeSpecBase module rest base
    else if n = "super" then delocalizeSpecBase module rest base.dropLast
    else if n = "crate" then delocalizeSpecBase module rest (module.take 1)
    else delocalizeSpecBase module rest base
  | _ :: rest, base => delocalizeSpecBase module rest base

/-- Walk a trie downward through child modules by name; the spine the
non-final segments of a use-path traverse. -/
def walkNames {α : Type} : PathNode α → List String → Option (PathNode α)
  | node, [] => some node
  | node, s :: rest =>
    match assocFind s node.child_mods with
    | none => none
    | some child => walkNames child rest

/-! ## Claims -/

/-- Claim C9 counterexample: `replace_first` on the empty path and on a
path whose first segment is a glob completes normally and leaves the path
unchanged — it does not fail; the spec-side behaviour demands
`InvalidUsePath` at the same inputs (and `src/error.rs` has no such
variant at all). -/
theorem claim_C9_cex :
    UsePath.replace_first ⟨[], Visibility.Public⟩ "x" =
      ⟨[], Visibility.Public⟩ ∧
    UsePath.replace_first ⟨[UsePathComponent.Glob], Visibility.Public⟩ "x" =
      ⟨[UsePathComponent.Glob], Visibility.Public⟩ ∧
    replace_first_spec ⟨[], Visibility.Public⟩ "x" =
      .error SpecError.InvalidUsePath ∧
    replace_first_spec ⟨[UsePathComponent.Glob], Visibility.Public⟩ "x" =
      .error SpecError.InvalidUsePath :=
  ⟨rfl, rfl, rfl, rfl⟩

/-- Claim C9 (amended): calling `replace_first` on an empty path or one
whose first segment is not a plain identifier silently leaves the path
unchanged; no error is signalled. -/
theorem claim_C9 (up : UsePath) (s : String)
    (h : ∀ n rest, up.path ≠ UsePathComponent.Name n :: rest) :
    up.replace_first s = up := by
  unfold UsePath.replace_first
  match hm : up.path with
  | [] => rfl
  | .Name n :: rest => exact absurd hm (h n rest)
  | .Rename _ _ :: _ => rfl
  | .Glob :: _ => rfl
  | .Empty :: _ => rfl

/-- Claim C9 witness: the amended theorem at the glob-headed path. -/
theorem claim_C9_witness :
    (∀ n rest, [UsePathComponent.Glob] ≠ UsePathComponent.Name n :: rest) ∧
    UsePath.replace_first ⟨[UsePathComponent.Glob], Visibility.Public⟩ "x" =
      ⟨[UsePathComponent.Glob], Visibility.Public⟩ :=
  ⟨by simp, claim_C9 ⟨[UsePathComponent.Glob], Visibility.Public⟩ "x"
    (by simp)⟩

/-- Claim C8 counterexample: resolving `*::x` (two segments, glob first)
in a trivial tree panics in the source (`as_name().unwrap()` on a
non-identifier segment), modelled as `none` — it does not yield the
empty result set. -/
theorem claim_C8_cex :
    PathNode.resolve_use_path
        (PathNode.mk "r" [] ([] : List (String × Unit)))
        [UsePathComponent.Glob, UsePathComponent.Name "x"] [] = none ∧
    ¬ PathNode.resolve_use_path
        (PathNode.mk "r" [] ([] : List (String × Unit)))
        [UsePathComponent.Glob, UsePathComponent.Name "x"] [] = some [] :=
  ⟨rfl, by decide⟩

/-- Claim C8 (amended): for every use-path of length greater than one
whose first segment is not a plain identifier, tree resolution panics
(`as_name().unwrap()`), modelled as `none` — rather than yielding the
empty result set. -/
theorem claim_C8 {α : Type} (node : PathNode α) (c c2 : UsePathComponent)
    (rest : List UsePathComponent) (mod_path : Path)
    (h : c.as_name = none) :
    node.resolve_use_path (c :: c2 :: rest) mod_path = none := by
  simp [PathNode.resolve_use_path, h]

/-- Claim C8 witness: the amended theorem at the concrete glob-first
two-segment path. -/
theorem claim_C8_witness :
    UsePathComponent.as_name .Glob = none ∧
    PathNode.resolve_use_path
        (PathNode.mk "r" [] ([] : List (String × Unit)))
        [UsePathComponent.Glob, UsePathComponent.Name "y"] [] = none :=
  ⟨rfl, claim_C8 (PathNode.mk "r" [] ([] : List (String × Unit)))
    .Glob (.Name "y") [] [] rfl⟩

/-- Walking the non-final plain-identifier segments of a use-path from a
node to `M` reduces resolution to the final segment at `M`, with the
module path extended by the walked names. -/
theorem resolveUsePath_walk {α : Type} :
    ∀ (pre : List String) (node M : PathNode α) (mod_path : Path)
      (cf : UsePathComponent),
      walkNames node pre = some M →
      node.resolve_use_path (pre.map UsePathComponent.Name ++ [cf])
          mod_path =
        M.resolve_use_path [cf]
          (mod_path ++ pre.map PathComponent.Name) := by
  intro pre
  induction pre with
  | nil =>
    intro node M mod_path cf h
    simp only [walkNames, Option.some.injEq] at h
    subst h
    simp
  | cons s rest ih =>
    intro node M mod_path cf h
    simp only [walkNames] at h
    rcases hf : assocFind s node.child_mods with _ | child
    · rw [hf] at h
      exact absurd h (by simp)
    · rw [hf] at h
      obtain ⟨c2, l2, hl⟩ :
          ∃ c2 l2, rest.map UsePathComponent.Name ++ [cf] = c2 :: l2 := by
        cases rest <;> simp
      simp only [List.map_cons, List.cons_append, hl,
        PathNode.resolve_use_path, UsePathComponent.as_name, hf]
      rw [← hl, ih child M (mod_path ++ [PathComponent.Name s]) cf h]
      cases cf <;> simp [PathNode.resolve_use_path]

/-- Claim C6: resolving a use-path whose final segment is the glob, after
its non-final plain-identifier segments have walked from the start node to
`M`, returns exactly the items directly declared at `M` plus one module
result per direct child module of `M` — and every returned result is one
of those, so nothing from deeper descendants is ever returned. -/
theorem claim_C6 {α : Type} (pre : List String) (node M : PathNode α)
    (mod_path : Path) (h : walkNames node pre = some M) :
    node.resolve_use_path
        (pre.map UsePathComponent.Name ++ [UsePathComponent.Glob])
        mod_path =
      some ((M.child_items.map fun kv => ResolvedUsePath.Struct kv.2) ++
        (M.child_mods.map fun kv =>
          ResolvedUsePath.Module
            (mod_path ++ pre.map PathComponent.Name ++
              [PathComponent.Name kv.1]))) ∧
    ∀ res, node.resolve_use_path
        (pre.map UsePathComponent.Name ++ [UsePathComponent.Glob])
        mod_path = some res →
      ∀ r ∈ res,
        (∃ kv ∈ M.child_items, r = ResolvedUsePath.Struct kv.2) ∨
        (∃ kv ∈ M.child_mods, r = ResolvedUsePath.Module
          (mod_path ++ pre.map PathComponent.Name ++
            [PathComponent.Name kv.1])) := by
  have heq : node.resolve_use_path
      (pre.map UsePathComponent.Name ++ [UsePathComponent.Glob])
      mod_path =
      some ((M.child_items.map fun kv => ResolvedUsePath.Struct kv.2) ++
        (M.child_mods.map fun kv =>
          ResolvedUsePath.Module
            (mod_path ++ pre.map PathComponent.Name ++
              [PathComponent.Name kv.1]))) := by
    rw [resolveUsePath_walk pre node M mod_path UsePathComponent.Glob h]
    simp [PathNode.resolve_use_path]
  refine ⟨heq, ?_⟩
  intro res hres r hr
  rw [heq] at hres
  obtain rfl := Option.some.inj hres
  simp only [List.mem_append, List.mem_map] at hr
  rcases hr with ⟨kv, hkv, rfl⟩ | ⟨kv, hkv, rfl⟩
  · exact Or.inl ⟨kv, hkv, rfl⟩
  · exact Or.inr ⟨kv, hkv, rfl⟩

/-- Claim C6 witness: a two-level tree where the walked module holds one
item and one child module; the glob returns exactly those two results and
nothing from the grandchild. -/
theorem claim_C6_witness :
    walkNames
        (PathNode.mk "r"
          [("a", PathNode.mk "a"
            [("b", PathNode.mk "b" [] [("deep", (9 : Nat))])]
            [("it", (4 : Nat))])] [])
        ["a"] =
      some (PathNode.mk "a"
        [("b", PathNode.mk "b" [] [("deep", (9 : Nat))])]
        [("it", (4 : Nat))]) ∧
    (PathNode.resolve_use_path
        (PathNode.mk "r"
          [("a", PathNode.mk "a"
            [("b", PathNode.mk "b" [] [("deep", (9 : Nat))])]
            [("it", (4 : Nat))])] [])
        ([UsePathComponent.Name "a", UsePathComponent.Glob]) [] =
      some [ResolvedUsePath.Struct 4,
        ResolvedUsePath.Module [PathComponent.Name "a",
          PathComponent.Name "b"]]) := by
  constructor
  · rfl
  · have := (claim_C6 ["a"]
      (PathNode.mk "r"
        [("a", PathNode.mk "a"
          [("b", PathNode.mk "b" [] [("deep", (9 : Nat))])]
          [("it", (4 : Nat))])] [])
      (PathNode.mk "a"
        [("b", PathNode.mk "b" [] [("deep", (9 : Nat))])]
        [("it", (4 : Nat))]) [] rfl).1
    simpa using this

/-- The delocalize loop agrees with the spec's base fold and keeps exactly
the plain (non-marker) identifiers, in order, behind the accumulator. -/
theorem delocalizeAux_spec (module : Path) (hm : module ≠ []) :
    ∀ (comps : List UsePathComponent) (base : Path)
      (acc : List UsePathComponent),
      (∀ c ∈ comps, ∃ n, c = UsePathComponent.Name n) →
      delocalizeAux module comps base acc =
        some (delocalizeSpecBase module comps base,
          acc ++ comps.filter (fun c => isKeptName c)) := by
  intro comps
  induction comps with
  | nil => intro base acc _; simp [delocalizeAux, delocalizeSpecBase]
  | cons c rest ih =>
    intro base acc hall
    obtain ⟨n, rfl⟩ := hall c (by simp)
    have hrest : ∀ c ∈ rest, ∃ n, c = UsePathComponent.Name n :=
      fun c hc => hall c (by simp [hc])
    by_cases hsup : n = "super"
    · subst hsup
      have h1 : delocalizeAux module
          (UsePathComponent.Name "super" :: rest) base acc =
          delocalizeAux module rest base.dropLast acc := rfl
      have h2 : delocalizeSpecBase module
          (UsePathComponent.Name "super" :: rest) base =
          delocalizeSpecBase module rest base.dropLast := rfl
      have h3 : List.filter (fun c => isKeptName c)
          (UsePathComponent.Name "super" :: rest) =
          List.filter (fun c => isKeptName c) rest := rfl
      rw [h1, h2, h3, ih _ _ hrest]
    · by_cases hcr : n = "crate"
      · subst hcr
        rcases module with _ | ⟨m0, mrest⟩
        · exact absurd rfl hm
        · have h1 : delocalizeAux (m0 :: mrest)
              (UsePathComponent.Name "crate" :: rest) base acc =
              delocalizeAux (m0 :: mrest) rest [m0] acc := rfl
          have h2 : delocalizeSpecBase (m0 :: mrest)
              (UsePathComponent.Name "crate" :: rest) base =
              delocalizeSpecBase (m0 :: mrest) rest [m0] := rfl
          have h3 : List.filter (fun c => isKeptName c)
              (UsePathComponent.Name "crate" :: rest) =
              List.filter (fun c => isKeptName c) rest := rfl
          rw [h1, h2, h3, ih _ _ hrest]
      · by_cases hse : n = "self"
        · subst hse
          have h1 : delocalizeAux module
              (UsePathComponent.Name "self" :: rest) base acc =
              delocalizeAux module rest base acc := rfl
          have h2 : delocalizeSpecBase module
              (UsePathComponent.Name "self" :: rest) base =
              delocalizeSpecBase module rest base := rfl
          have h3 : List.filter (fun c => isKeptName c)
              (UsePathComponent.Name "self" :: rest) =
              List.filter (fun c => isKeptName c) rest := rfl
          rw [h1, h2, h3, ih _ _ hrest]
        · have hkeep : isKeptName (UsePathComponent.Name n) = true := by
            simp [isKeptName, hse, hsup, hcr]
          simp only [delocalizeAux, delocalizeSpecBase, if_neg hsup,
            if_neg hcr, if_neg hse]
          rw [ih _ _ hrest]
          simp [List.filter_cons, hkeep]

/-- Claim C2: for a use-path of length at least one whose prefix segments
are all plain-identifier components and a non-empty containing module,
`delocalize` returns exactly the base computed by the spec's fold (`self`
keeps the base, `super` drops one trailing segment — dropping beyond the
root leaving it empty — `crate` resets it to the containing module's first
segment) together with the rewritten use-path holding, in order, exactly
the non-marker identifiers of the prefix followed by the unchanged last
segment. -/
theorem claim_C2 (up : UsePath) (module : Path) (last : UsePathComponent)
    (hlast : up.path.getLast? = some last)
    (hpre : ∀ c ∈ up.path.dropLast, ∃ n, c = UsePathComponent.Name n)
    (hm : module ≠ []) :
    up.delocalize module =
      some (delocalizeSpecBase module up.path.dropLast module,
        ⟨up.path.dropLast.filter (fun c => isKeptName c) ++ [last],
          up.vis⟩) := by
  unfold UsePath.delocalize
  rw [hlast, delocalizeAux_spec module hm up.path.dropLast module [] hpre]
  simp

/-- Claim C2 witness: `super::super::super::cat::Help` against `rand::foo`
drops past the root (base becomes empty and stays so) and keeps `cat`
before the preserved last segment. -/
theorem claim_C2_witness :
    ([PathComponent.Name "rand", PathComponent.Name "foo"] : Path) ≠ [] ∧
    UsePath.delocalize
        ⟨[UsePathComponent.Name "super", UsePathComponent.Name "super",
          UsePathComponent.Name "super", UsePathComponent.Name "cat",
          UsePathComponent.Name "Help"], Visibility.Public⟩
        [PathComponent.Name "rand", PathComponent.Name "foo"] =
      some (([] : Path),
        ⟨[UsePathComponent.Name "cat", UsePathComponent.Name "Help"],
          Visibility.Public⟩) := by
  refine ⟨by simp, ?_⟩
  have h := claim_C2
    ⟨[UsePathComponent.Name "super", UsePathComponent.Name "super",
      UsePathComponent.Name "super", UsePathComponent.Name "cat",
      UsePathComponent.Name "Help"], Visibility.Public⟩
    [PathComponent.Name "rand", PathComponent.Name "foo"]
    (UsePathComponent.Name "Help") rfl
    (by
      intro c hc
      simp only [List.dropLast, List.mem_cons, List.not_mem_nil,
        or_false] at hc
      rcases hc with rfl | rfl | rfl | rfl <;> exact ⟨_, rfl⟩)
    (by simp)
  exact h.trans (by rfl)

/-- Claim C10: for a module `M` reached by walking the non-final
plain-identifier segments from the start node, a use-path ending in a
plain identifier `N` or a rename with source name `N` resolves to at most
one result: the item named `N` declared directly in `M` if one exists,
otherwise the direct child module of `M` named `N` if one exists,
otherwise nothing — an item and a child module of the same name are never
both returned, the item taking precedence. -/
theorem claim_C10 {α : Type} (node M : PathNode α) (pre : List String)
    (c : UsePathComponent) (name t : String) (mod_path : Path)
    (hwalk : walkNames node pre = some M)
    (h : c = UsePathComponent.Name name ∨
      c = UsePathComponent.Rename name t) :
    ∃ res, node.resolve_use_path (pre.map UsePathComponent.Name ++ [c])
        mod_path = some res ∧
      res.length ≤ 1 ∧
      (∀ a, assocFind name M.child_items = some a →
        res = [ResolvedUsePath.Struct a]) ∧
      (assocFind name M.child_items = none →
        ∀ x, assocFind name M.child_mods = some x →
          res = [ResolvedUsePath.Module
            (mod_path ++ pre.map PathComponent.Name ++
              [PathComponent.Name name])]) ∧
      (assocFind name M.child_items = none →
        assocFind name M.child_mods = none → res = []) := by
  refine ⟨resolve_name M name (mod_path ++ pre.map PathComponent.Name),
    ?_, ?_, ?_, ?_, ?_⟩
  · rw [resolveUsePath_walk pre node M mod_path c hwalk]
    rcases h with h | h <;> subst h <;> rfl
  · unfold resolve_name
    rcases hi : assocFind name M.child_items with _ | a
    · rcases hm : assocFind name M.child_mods with _ | x <;> simp
    · simp
  · intro a ha
    unfold resolve_name
    rw [ha]
  · intro hi x hm
    unfold resolve_name
    rw [hi, hm]
  · intro hi hm
    unfold resolve_name
    rw [hi, hm]

/-- Claim C10 witness: under module `m`, an item `n` and a child module
`n` coexist; `m::n` returns only the item. -/
theorem claim_C10_witness :
    walkNames
        (PathNode.mk "r"
          [("m", PathNode.mk "m" [("n", PathNode.mk "n" [] [])]
            [("n", (7 : Nat))])] [])
        ["m"] =
      some (PathNode.mk "m" [("n", PathNode.mk "n" [] [])]
        [("n", (7 : Nat))]) ∧
    ∃ res, PathNode.resolve_use_path
        (PathNode.mk "r"
          [("m", PathNode.mk "m" [("n", PathNode.mk "n" [] [])]
            [("n", (7 : Nat))])] [])
        [UsePathComponent.Name "m", UsePathComponent.Name "n"] [] =
          some res ∧
      res.length ≤ 1 ∧
      (∀ a, assocFind "n"
          (PathNode.mk "m" [("n", PathNode.mk "n" [] [])]
            [("n", (7 : Nat))]).child_items = some a →
        res = [ResolvedUsePath.Struct a]) ∧
      (assocFind "n"
          (PathNode.mk "m" [("n", PathNode.mk "n" [] [])]
            [("n", (7 : Nat))]).child_items = none →
        ∀ x, assocFind "n"
            (PathNode.mk "m" [("n", PathNode.mk "n" [] [])]
              [("n", (7 : Nat))]).child_mods = some x →
          res = [ResolvedUsePath.Module
            (([] : Path) ++ ["m"].map PathComponent.Name ++
              [PathComponent.Name "n"])]) ∧
      (assocFind "n"
          (PathNode.mk "m" [("n", PathNode.mk "n" [] [])]
            [("n", (7 : Nat))]).child_items = none →
        assocFind "n"
          (PathNode.mk "m" [("n", PathNode.mk "n" [] [])]
            [("n", (7 : Nat))]).child_mods = none → res = []) :=
  ⟨rfl,
    claim_C10
      (PathNode.mk "r"
        [("m", PathNode.mk "m" [("n", PathNode.mk "n" [] [])]
          [("n", (7 : Nat))])] [])
      (PathNode.mk "m" [("n", PathNode.mk "n" [] [])] [("n", (7 : Nat))])
      ["m"] (UsePathComponent.Name "n") "n" "t" [] rfl (Or.inl rfl)⟩

/-- When the local lookup of a delocalized use-path comes back empty, the
resolver falls back to extern-crate renames — crate scope first, the full
containing module only if nothing was rewritten — and resolves the
rewritten path from the empty root base. -/
theorem resolve_fallback {S E C T M : Type} (r : UsePathResolver S E C T M)
    (up : UsePath) (m base : Path) (up1 : UsePath) (c0 : PathComponent)
    (hed : Edition.rank .Edition2018 ≤ Edition.rank r.edition)
    (habs : up.begins_with_empty = false)
    (hdel : up.delocalize m = some (base, up1))
    (hemp : r.resolve_internal up1 base = [])
    (hc0 : m.head? = some c0) :
    r.resolve up m = some (r.resolve_internal
      (let st1 := extern_crate_rename up1 [c0] r.extern_crates
       if st1.2 then st1.1
       else (extern_crate_rename st1.1 m r.extern_crates).1) []) := by
  have hfp : m.first_as_path = some [c0] := by
    simp [Path.first_as_path, hc0]
  simp [UsePathResolver.resolve, hed, habs, hdel, hemp, hfp]

/-- Claim C1: for edition 2018 or later, a use-path whose first component
is the absolute-root marker is resolved with the marker removed from the
empty root base, independently of the containing module; any other
use-path is first delocalized against the containing module and resolved
from the resulting base across every item-kind tree, that result standing
if non-empty, and only when it is empty are extern-crate renames applied
(crate scope first, then the full containing module) before resolving the
rewritten path from the empty root base. -/
theorem claim_C1 {S E C T M : Type} (r : UsePathResolver S E C T M)
    (up : UsePath) (m : Path)
    (hed : Edition.rank .Edition2018 ≤ Edition.rank r.edition) :
    (up.begins_with_empty = true →
      (∀ m' : Path, r.resolve up m' = r.resolve up m) ∧
      (∀ up1, up.remove_first = some up1 →
        r.resolve up m = some (r.resolve_internal up1 []))) ∧
    (up.begins_with_empty = false →
      ∀ base up1, up.delocalize m = some (base, up1) →
        (r.resolve_internal up1 base ≠ [] →
          r.resolve up m = some (r.resolve_internal up1 base)) ∧
        (r.resolve_internal up1 base = [] →
          ∀ c0, m.head? = some c0 →
            r.resolve up m = some (r.resolve_internal
              (let st1 := extern_crate_rename up1 [c0] r.extern_crates
               if st1.2 then st1.1
               else (extern_crate_rename st1.1 m r.extern_crates).1)
              []))) := by
  constructor
  · intro habs
    constructor
    · intro m'
      simp [UsePathResolver.resolve, hed, habs]
    · intro up1 h1
      simp [UsePathResolver.resolve, hed, habs, h1]
  · intro habs base up1 hdel
    constructor
    · intro hne
      simp [UsePathResolver.resolve, hed, habs, hdel, hne]
    · intro hemp c0 hc0
      exact resolve_fallback r up m base up1 c0 hed habs hdel hemp hc0

/-- A small concrete resolver for witnesses: a structs tree holding
`core::Debug` and `mycrate::Local`, empty other trees, and the extern
crate `core as kore` recorded at the crate root `mycrate`. -/
def demoResolver : UsePathResolver Nat Nat Nat Nat Nat where
  structs_tree :=
    PathNode.mk "<root>"
      [("core", PathNode.mk "core" [] [("Debug", 1)]),
        ("mycrate", PathNode.mk "mycrate" [] [("Local", 2)])] []
  enums_tree := PathNode.mk "<root>" [] []
  consts_tree := PathNode.mk "<root>" [] []
  type_aliases_tree := PathNode.mk "<root>" [] []
  mod_tree := PathNode.mk "<root>" [] []
  extern_crates :=
    [([PathComponent.Name "mycrate"],
      [⟨"core", some "kore", [PathComponent.Name "mycrate"],
        Visibility.Public⟩])]
  edition := Edition.Edition2018

/-- Claim C1 witness: the absolute path `::core::Debug` resolves from the
root regardless of the containing module. -/
theorem claim_C1_witness :
    Edition.rank .Edition2018 ≤ Edition.rank demoResolver.edition ∧
    demoResolver.resolve
        ⟨[UsePathComponent.Empty, UsePathComponent.Name "core",
          UsePathComponent.Name "Debug"], Visibility.Public⟩
        [PathComponent.Name "mycrate"] =
      some [ResolvedItem.Struct 1] := by
  refine ⟨by decide, ?_⟩
  have h := ((claim_C1 demoResolver
    ⟨[UsePathComponent.Empty, UsePathComponent.Name "core",
      UsePathComponent.Name "Debug"], Visibility.Public⟩
    [PathComponent.Name "mycrate"] (by decide)).1 rfl).2
    ⟨[UsePathComponent.Name "core", UsePathComponent.Name "Debug"],
      Visibility.Public⟩ rfl
  exact h.trans (by rfl)

/-- Claim C5: when the local lookup is empty and the use-path's first
segment is the plain identifier `al`, a record `extern crate real as al;`
in the extern-crates table rewrites that first segment to `real` before
the global resolution from the root; the table is consulted first under
the single-identifier crate scope, and under the full containing module
only when no rewrite happened there. -/
theorem claim_C5 {S E C T M : Type} (r : UsePathResolver S E C T M)
    (up : UsePath) (m base : Path) (real al : String)
    (tail : List UsePathComponent) (vis1 : Visibility)
    (ecmod : Path) (ecvis : Visibility) (c0 : PathComponent)
    (hed : Edition.rank .Edition2018 ≤ Edition.rank r.edition)
    (habs : up.begins_with_empty = false)
    (hdel : up.delocalize m =
      some (base, ⟨UsePathComponent.Name al :: tail, vis1⟩))
    (hemp : r.resolve_internal
      ⟨UsePathComponent.Name al :: tail, vis1⟩ base = [])
    (hc0 : m.head? = some c0) :
    (assocFind [c0] r.extern_crates =
        some [⟨real, some al, ecmod, ecvis⟩] →
      r.resolve up m = some (r.resolve_internal
        ⟨UsePathComponent.Name real :: tail, vis1⟩ [])) ∧
    (assocFind [c0] r.extern_crates = none →
      assocFind m r.extern_crates =
        some [⟨real, some al, ecmod, ecvis⟩] →
      r.resolve up m = some (r.resolve_internal
        ⟨UsePathComponent.Name real :: tail, vis1⟩ [])) := by
  have hbase := resolve_fallback r up m base
    ⟨UsePathComponent.Name al :: tail, vis1⟩ c0 hed habs hdel hemp hc0
  constructor
  · intro hlook
    rw [hbase]
    have hren : extern_crate_rename
        ⟨UsePathComponent.Name al :: tail, vis1⟩ [c0] r.extern_crates =
        (⟨UsePathComponent.Name real :: tail, vis1⟩, true) := by
      simp [extern_crate_rename, hlook, UsePath.begins_with,
        UsePath.replace_first]
    simp [hren]
  · intro hnone hlook
    rw [hbase]
    have hren1 : extern_crate_rename
        ⟨UsePathComponent.Name al :: tail, vis1⟩ [c0] r.extern_crates =
        (⟨UsePathComponent.Name al :: tail, vis1⟩, false) := by
      simp [extern_crate_rename, hnone]
    have hren2 : extern_crate_rename
        ⟨UsePathComponent.Name al :: tail, vis1⟩ m r.extern_crates =
        (⟨UsePathComponent.Name real :: tail, vis1⟩, true) := by
      simp [extern_crate_rename, hlook, UsePath.begins_with,
        UsePath.replace_first]
    simp [hren1, hren2]

/-- Claim C5 witness: `use kore::Debug;` inside `mycrate` misses locally,
is rewritten to `core::Debug` through the crate-root extern-crate record,
and resolves to the struct at `core::Debug`. -/
theorem claim_C5_witness :
    assocFind [PathComponent.Name "mycrate"] demoResolver.extern_crates =
      some [⟨"core", some "kore", [PathComponent.Name "mycrate"],
        Visibility.Public⟩] ∧
    demoResolver.resolve
        ⟨[UsePathComponent.Name "kore", UsePathComponent.Name "Debug"],
          Visibility.Public⟩
        [PathComponent.Name "mycrate"] =
      some [ResolvedItem.Struct 1] := by
  refine ⟨rfl, ?_⟩
  have h := (claim_C5 demoResolver
    ⟨[UsePathComponent.Name "kore", UsePathComponent.Name "Debug"],
      Visibility.Public⟩
    [PathComponent.Name "mycrate"] [PathComponent.Name "mycrate"]
    "core" "kore" [UsePathComponent.Name "Debug"] Visibility.Public
    [PathComponent.Name "mycrate"] Visibility.Public
    (PathComponent.Name "mycrate")
    (by decide) rfl rfl rfl rfl).1 rfl
  exact h.trans (by rfl)

/-- Claim C3: for `mod X;` without a path attribute, the candidate
directory is the current file's directory — with the current module's
local name appended first when the current category is Direct — and
discovery binds `X` to `<dir>/X.rs` as Direct when that file exists, else
to `<dir>/X/mod.rs` as Mod; when neither exists, `submodule` misses and
`direct_submodules` fails with an error whose message names the submodule
and the containing module; in every case the bound submodule's
fully-qualified path is the current one with `X` appended. -/
theorem claim_C3 (fs : List (List String)) (m : Module) (X : String)
    (vis : Visibility) :
    let dir := if m.cat = ModuleCategory.Direct
      then m.path.dropLast ++ [m.name] else m.path.dropLast
    ((m.cat = ModuleCategory.Root ∨ m.cat = ModuleCategory.Mod) →
      dir = m.path.dropLast) ∧
    (m.cat = ModuleCategory.Direct → dir = m.path.dropLast ++ [m.name]) ∧
    (dir ++ [X ++ ".rs"] ∈ fs →
      m.submodule fs X vis = some ⟨dir ++ [X ++ ".rs"],
        m.rust_path ++ [PathComponent.Name X], X,
        ModuleCategory.Direct, vis⟩) ∧
    (dir ++ [X ++ ".rs"] ∉ fs → dir ++ [X, "mod.rs"] ∈ fs →
      m.submodule fs X vis = some ⟨dir ++ [X, "mod.rs"],
        m.rust_path ++ [PathComponent.Name X], X,
        ModuleCategory.Mod, vis⟩) ∧
    (dir ++ [X ++ ".rs"] ∉ fs → dir ++ [X, "mod.rs"] ∉ fs →
      m.submodule fs X vis = none ∧
      m.direct_submodules fs [⟨X, none, vis⟩] =
        some (.error (Error.InvalidCrate
          ("Failed to find sub-self " ++ X ++ " for module " ++
            m.toStr)))) ∧
    (∀ sub, m.submodule fs X vis = some sub →
      sub.rust_path = m.rust_path ++ [PathComponent.Name X]) := by
  intro dir
  have hdir : (if m.cat = ModuleCategory.Direct
      then m.path.dropLast ++ [m.name] else m.path.dropLast) = dir := rfl
  refine ⟨?_, ?_, ?_, ?_, ?_, ?_⟩
  · intro h
    rcases h with h | h <;> simp [dir, h]
  · intro h
    simp [dir, h]
  · intro hin
    simp only [Module.submodule, hdir]
    rw [if_pos hin]
  · intro hout hin
    simp only [Module.submodule, hdir]
    rw [if_neg hout, if_pos hin]
  · intro hout1 hout2
    have hsub : m.submodule fs X vis = none := by
      simp only [Module.submodule, hdir]
      rw [if_neg hout1, if_neg hout2]
    refine ⟨hsub, ?_⟩
    simp [Module.direct_submodules, hsub]
  · intro sub hsub
    simp only [Module.submodule, hdir] at hsub
    by_cases h1 : dir ++ [X ++ ".rs"] ∈ fs
    · rw [if_pos h1] at hsub
      obtain rfl := Option.some.inj hsub
      rfl
    · rw [if_neg h1] at hsub
      by_cases h2 : dir ++ [X, "mod.rs"] ∈ fs
      · rw [if_pos h2] at hsub
        obtain rfl := Option.some.inj hsub
        rfl
      · rw [if_neg h2] at hsub
        cases hsub

/-- Claim C3 witness: a Root module at `lib.rs`; `sub.rs` exists, so
`mod sub;` binds to it with category Direct and rust path extended. -/
theorem claim_C3_witness :
    (["sub.rs"] : List String) ∈ [["lib.rs"], ["sub.rs"]] ∧
    Module.submodule [["lib.rs"], ["sub.rs"]]
        ⟨["lib.rs"], [PathComponent.Name "mycrate"], "mycrate",
          ModuleCategory.Root, Visibility.Public⟩ "sub" Visibility.Public =
      some ⟨["sub.rs"],
        [PathComponent.Name "mycrate", PathComponent.Name "sub"], "sub",
        ModuleCategory.Direct, Visibility.Public⟩ := by
  refine ⟨by decide, ?_⟩
  have h := (claim_C3 [["lib.rs"], ["sub.rs"]]
    ⟨["lib.rs"], [PathComponent.Name "mycrate"], "mycrate",
      ModuleCategory.Root, Visibility.Public⟩ "sub"
    Visibility.Public).2.2.1 (by decide)
  exact h.trans (by rfl)

/-- Claim C7: a `mod X;` bearing `#[path = "…"]` or
`#[cfg_attr(cond, path = "…")]` — the conditional playing no role — is
bound at the current file's directory joined with the attribute path; the
category is read off the resulting file name (`mod.rs` → Mod, `lib.rs` →
Root, anything else → Direct), and the rust path is the current one with
`X` appended. -/
theorem claim_C7 (fs : List (List String)) (m : Module) (X : String)
    (vis : Visibility) (p : List String) (fn cond lit : String)
    (attrs : List SynAttr) :
    (findPathAttr (SynAttr.pathAttr lit :: attrs) = .ok (some lit)) ∧
    (findPathAttr (SynAttr.cfgAttrPath cond lit :: attrs) =
      .ok (some lit)) ∧
    (X ≠ "r#try" →
      emptyModsFromItems
          [SynItem.Mod X [SynAttr.cfgAttrPath cond lit] none vis] =
        .ok [⟨X, some (pathBufFromString lit), vis⟩]) ∧
    ((m.path.dropLast ++ p).getLast? = some fn →
      m.direct_submodules fs [⟨X, some p, vis⟩] =
        some (.ok [⟨m.path.dropLast ++ p,
          m.rust_path ++ [PathComponent.Name X], X,
          (if fn = "mod.rs" then ModuleCategory.Mod
           else if fn = "lib.rs" then ModuleCategory.Root
           else ModuleCategory.Direct), vis⟩])) := by
  refine ⟨rfl, rfl, ?_, ?_⟩
  · intro hX
    simp [emptyModsFromItems, findPathAttr, hX]
  · intro hfn
    simp [Module.direct_submodules, hfn]

/-- Claim C7 witness: `#[path = "alt/thing.rs"] mod thing;` in `lib.rs`
binds `thing` at `alt/thing.rs` with category Direct, the `cfg_attr`
conditional being irrelevant to attribute extraction. -/
theorem claim_C7_witness :
    ((["lib.rs"] : List String).dropLast ++
        ["alt", "thing.rs"]).getLast? = some "thing.rs" ∧
    Module.direct_submodules [["lib.rs"], ["alt", "thing.rs"]]
        ⟨["lib.rs"], [PathComponent.Name "e"], "e",
          ModuleCategory.Root, Visibility.Public⟩
        [⟨"thing", some ["alt", "thing.rs"], Visibility.Public⟩] =
      some (.ok [⟨["alt", "thing.rs"],
        [PathComponent.Name "e", PathComponent.Name "thing"], "thing",
        ModuleCategory.Direct, Visibility.Public⟩]) ∧
    emptyModsFromItems
        [SynItem.Mod "thing"
          [SynAttr.cfgAttrPath "windows" "alt/thing.rs"] none
          Visibility.Public] =
      .ok [⟨"thing", some ["alt", "thing.rs"], Visibility.Public⟩] := by
  refine ⟨rfl, ?_, ?_⟩
  · have h := (claim_C7 [["lib.rs"], ["alt", "thing.rs"]]
      ⟨["lib.rs"], [PathComponent.Name "e"], "e",
        ModuleCategory.Root, Visibility.Public⟩ "thing"
      Visibility.Public ["alt", "thing.rs"] "thing.rs" "windows"
      "alt/thing.rs" []).2.2.2 rfl
    exact h.trans (by rfl)
  · have h := (claim_C7 [["lib.rs"], ["alt", "thing.rs"]]
      ⟨["lib.rs"], [PathComponent.Name "e"], "e",
        ModuleCategory.Root, Visibility.Public⟩ "thing"
      Visibility.Public ["alt", "thing.rs"] "thing.rs" "windows"
      "alt/thing.rs" []).2.2.1 (by decide)
    exact h.trans (by rfl)

/-- Claim C4: a file whose top-level parse fails contributes the empty
item list with one warning and no error from `things_from_file`; seen as a
module's own file it yields zero submodule discoveries; at the submodule
call sites it is substituted by the empty map with a further warning,
while files that do parse are processed normally; a parse failure is never
surfaced as an error. -/
theorem claim_C4 {α : Type} (env : Env)
    (gen : List SynItem → Path → ThingMap α) (f : List String)
    (hf : assocFind f env.files = some none) :
    (∀ module, things_from_file env gen f module = .ok (1, none)) ∧
    (∀ module e, things_from_file env gen f module ≠ .error e) ∧
    (∀ m : Module, m.path = f → ∀ fuel,
      things_from_submodules env gen (fuel + 1) m = some (.ok (1, []))) ∧
    (∀ sub : Module, sub.path = f →
      file_things env gen sub = some (2, [])) ∧
    (∀ (sub : Module) items, assocFind sub.path env.files = some (some items) →
      file_things env gen sub = some (0, gen items sub.rust_path)) := by
  refine ⟨?_, ?_, ?_, ?_, ?_⟩
  · intro module
    simp [things_from_file, hf]
  · intro module e
    simp [things_from_file, hf]
  · intro m hm fuel
    subst hm
    simp [things_from_submodules, empty_modules_from_file, hf]
  · intro sub hsub
    simp [file_things, things_from_file, hsub, hf]
  · intro sub items hsub
    simp [file_things, things_from_file, hsub]

/-- Claim C4 witness: `lib.rs` declares `mod a;` and `mod b;`; `a.rs`
fails to parse and contributes nothing with a warning, `b.rs` parses and
is processed, and the crate-level walk still succeeds. -/
theorem claim_C4_witness :
    assocFind ["a.rs"]
      (Env.mk [(["lib.rs"],
          some [SynItem.Mod "a" [] none Visibility.Public,
            SynItem.Mod "b" [] none Visibility.Public]),
        (["a.rs"], none),
        (["b.rs"], some [SynItem.Other])]).files = some none ∧
    things_from_file
        (Env.mk [(["lib.rs"],
            some [SynItem.Mod "a" [] none Visibility.Public,
              SynItem.Mod "b" [] none Visibility.Public]),
          (["a.rs"], none),
          (["b.rs"], some [SynItem.Other])])
        (fun items module => [(module, [items.length])]) ["a.rs"]
        [PathComponent.Name "f", PathComponent.Name "a"] =
      .ok (1, none) ∧
    file_things
        (Env.mk [(["lib.rs"],
            some [SynItem.Mod "a" [] none Visibility.Public,
              SynItem.Mod "b" [] none Visibility.Public]),
          (["a.rs"], none),
          (["b.rs"], some [SynItem.Other])])
        (fun items module => [(module, [items.length])])
        ⟨["b.rs"], [PathComponent.Name "f", PathComponent.Name "b"], "b",
          ModuleCategory.Direct, Visibility.Public⟩ =
      some (0, [([PathComponent.Name "f", PathComponent.Name "b"],
        [1])]) := by
  refine ⟨rfl, ?_, ?_⟩
  · exact (claim_C4
      (Env.mk [(["lib.rs"],
          some [SynItem.Mod "a" [] none Visibility.Public,
            SynItem.Mod "b" [] none Visibility.Public]),
        (["a.rs"], none),
        (["b.rs"], some [SynItem.Other])])
      (fun items module => [(module, [items.length])]) ["a.rs"] rfl).1
      [PathComponent.Name "f", PathComponent.Name "a"]
  · have h := (claim_C4
      (Env.mk [(["lib.rs"],
          some [SynItem.Mod "a" [] none Visibility.Public,
            SynItem.Mod "b" [] none Visibility.Public]),
        (["a.rs"], none),
        (["b.rs"], some [SynItem.Other])])
      (fun items module => [(module, [items.length])]) ["a.rs"]
      rfl).2.2.2.2
      ⟨["b.rs"], [PathComponent.Name "f", PathComponent.Name "b"], "b",
        ModuleCategory.Direct, Visibility.Public⟩ [SynItem.Other] rfl
    exact h.trans (by rfl)

end Ratmole
